import Mathlib

/-!
# Verification of the investment-tracker portfolio application

A shallow embedding of the Python/Flask investment tracker (`app.py`,
`models.py`).  Python floats are modelled as exact rationals (`ℚ`); the
machine-float rounding noise that the spec bounds by `1e-9` disappears in
this exact model, so the arithmetic identities are stated exactly.
Database tables are modelled as Lean lists of records, SQL statements as
list operations, and the Flask request handlers as pure functions from an
explicit database state to a new state.
-/

/-! ## Data model (`models.py`)

`investments` and `transactions` rows.  `purchase_date` / timestamps are
opaque strings supplied by the store; they play no computational role. -/

/-- A row of the `investments` table (current holding). -/
structure Investment where
  id : ℕ
  user_id : ℕ
  symbol : String
  category : String
  quantity : ℚ
  buy_price : ℚ
  purchase_date : String
deriving DecidableEq, Repr

/-- A row of the `transactions` table (immutable BUY/SELL log entry). -/
structure Txn where
  user_id : ℕ
  symbol : String
  transaction_type : String
  quantity : ℚ
  price : ℚ
deriving DecidableEq, Repr

/-- The persistent store: the two tables the portfolio handlers touch. -/
structure DB where
  investments : List Investment
  transactions : List Txn
deriving DecidableEq, Repr

/-! ## Rounding

Python's builtin `round(x, 2)` rounds half to even.  On exact rationals
this is: round `100 * x` to the nearest integer, ties to the even
integer, divide by 100. -/

/-- Round a rational to the nearest integer, ties to even
(the semantics of Python's builtin `round` on exact values). -/
def roundHalfEven (x : ℚ) : ℤ :=
  let f := ⌊x⌋
  let r := x - f
  if r < 1/2 then f
  else if 1/2 < r then f + 1
  else if f % 2 = 0 then f else f + 1

/-- `round(x, 2)`: round to 2 decimal places, ties to even. -/
def round2 (x : ℚ) : ℚ := (roundHalfEven (x * 100) : ℚ) / 100

/-! ## Portfolio valuation (`dashboard`, app.py lines 182-263)

`get_live_price` (app.py 61-74) returns a float or `None`; the dashboard
consumes it through an injected lookup `String → Option ℚ`.  A `none`
result is the failure case: the handler records the symbol and
substitutes `0.0` (app.py 205-207). -/

/-- One row of the rendered dashboard table (app.py 222-235): all
monetary fields are presentation-rounded to 2 decimal places. -/
structure ValuationRow where
  id : ℕ
  symbol : String
  category : String
  quantity : ℚ
  buy_price : ℚ
  current_price : ℚ
  value : ℚ
  profit_loss : ℚ
  pct_return : ℚ
  purchase_date : String
deriving DecidableEq, Repr

instance : Inhabited ValuationRow :=
  ⟨⟨0, "", "", 0, 0, 0, 0, 0, 0, ""⟩⟩

/-- The effective live price used by the loop body: the looked-up price,
or `0.0` when the lookup failed (app.py 203-207). -/
def livePrice (lookup : String → Option ℚ) (symbol : String) : ℚ :=
  (lookup symbol).getD 0

/-- Loop body of the valuation pass (app.py 209-235): per-holding
arithmetic, then presentation rounding on append. -/
def valuationRow (inv : Investment) (live_price : ℚ) : ValuationRow :=
  let quantity := inv.quantity
  let buy_price := inv.buy_price
  let current_value := quantity * live_price
  let cost := quantity * buy_price
  let profit_loss := current_value - cost
  let pct_return :=
    if buy_price > 0 then (live_price - buy_price) / buy_price * 100 else 0
  { id := inv.id
    symbol := inv.symbol
    category := inv.category
    quantity := quantity
    buy_price := buy_price
    current_price := round2 live_price
    value := round2 current_value
    profit_loss := round2 profit_loss
    pct_return := round2 pct_return
    purchase_date := inv.purchase_date }

/-- The `for inv in investments` loop (app.py 201-235): accumulates the
rendered rows, the unrounded `total_value` and `total_cost`, and the
list of symbols whose price lookup failed, in input order. -/
def dashLoop (lookup : String → Option ℚ) (invs : List Investment) :
    List ValuationRow × ℚ × ℚ × List String :=
  invs.foldl
    (fun acc inv =>
      let lp := lookup inv.symbol
      let failed := if lp.isNone then acc.2.2.2 ++ [inv.symbol] else acc.2.2.2
      let live_price := lp.getD 0
      (acc.1 ++ [valuationRow inv live_price],
       acc.2.1 + inv.quantity * live_price,
       acc.2.2.1 + inv.quantity * inv.buy_price,
       failed))
    ([], 0, 0, [])

/-- `defaultdict(float)` bucket update (app.py 242-244): add `v` to the
bucket keyed `cat`, preserving first-seen key order. -/
def addToCategory (m : List (String × ℚ)) (cat : String) (v : ℚ) :
    List (String × ℚ) :=
  match m with
  | [] => [(cat, v)]
  | (c, x) :: rest =>
      if c = cat then (c, x + v) :: rest else (c, x) :: addToCategory rest cat v

/-- Everything the dashboard render receives (app.py 253-263), with the
unrounded running totals kept alongside. -/
structure Summary where
  rows : List ValuationRow
  total_value : ℚ
  total_cost : ℚ
  total_profit_loss : ℚ
  total_return_pct : ℚ
  failed_symbols : List String
  category_totals : List (String × ℚ)

/-- The `dashboard` handler's valuation pass (app.py 182-263): the loop,
the post-pass totals (lines 237-238), and the category aggregation over
the *rounded* row values (lines 240-247). -/
def dashboard (lookup : String → Option ℚ) (invs : List Investment) :
    Summary :=
  let p := dashLoop lookup invs
  { rows := p.1
    total_value := p.2.1
    total_cost := p.2.2.1
    total_profit_loss := p.2.1 - p.2.2.1
    total_return_pct :=
      if p.2.2.1 > 0 then (p.2.1 - p.2.2.1) / p.2.2.1 * 100 else 0
    failed_symbols := p.2.2.2
    category_totals :=
      p.1.foldl (fun m r => addToCategory m r.category r.value) [] }

/-- Sum of the values in the category→value mapping. -/
def categorySum (m : List (String × ℚ)) : ℚ := (m.map Prod.snd).sum

instance : Inhabited Investment := ⟨⟨0, 0, "", "", 0, 0, ""⟩⟩

/-! ## Investment mutation handlers (`edit_investment`, `delete_investment`)

The store's `SELECT ... WHERE id = ? AND user_id = ?` is a `find?` over
the table; `DELETE` and `UPDATE` act on every row matching their `WHERE`
clause.  `id` is the autoincrement primary key, so in any state the
store can reach, ids are pairwise distinct. -/

/-- Row predicate of `WHERE id = ? AND user_id = ?`. -/
def ownedBy (invId userId : ℕ) (inv : Investment) : Bool :=
  inv.id == invId && inv.user_id == userId

/-- The `delete_investment` handler (app.py 370-403): fetch the row by
id and user; if found, append a SELL transaction recording its quantity
and buy price, then delete it; otherwise leave the store untouched. -/
def delete_investment (userId invId : ℕ) (db : DB) : DB :=
  match db.investments.find? (ownedBy invId userId) with
  | some inv =>
      { investments :=
          db.investments.filter (fun j => !(ownedBy invId userId j)),
        transactions := db.transactions ++
          [⟨userId, inv.symbol, "SELL", inv.quantity, inv.buy_price⟩] }
  | none => db

/-- The `edit_investment` handler, POST branch (app.py 343-364): fetch
the row by id and user; reject missing rows and non-positive or
unparseable numbers without mutating; otherwise update `quantity` and
`buy_price` of the rows matching `WHERE id = ?` (the UPDATE's clause
names only the id).  `none` for a number models a failed `float()`
parse of the form field. -/
def edit_investment (userId invId : ℕ) (quantity buy_price : Option ℚ)
    (db : DB) : DB :=
  match db.investments.find? (ownedBy invId userId) with
  | none => db
  | some _ =>
      match quantity, buy_price with
      | some q, some b =>
          if q ≤ 0 ∨ b ≤ 0 then db
          else
            { db with
              investments := db.investments.map (fun inv =>
                if inv.id == invId then
                  { inv with quantity := q, buy_price := b }
                else inv) }
      | _, _ => db

/-! ## CSV export / import (app.py 433-504)

A parsed CSV data row as `csv.DictReader` hands it to the import loop:
each field is `none` when its column is absent from the header (then
`row.get(...)` falls back to its default), and the field's string
otherwise. -/

structure CsvRow where
  symbol : Option String
  category : Option String
  quantity : Option String
  buy_price : Option String
  purchase_date : Option String
deriving DecidableEq, Repr

def isDigitChar (c : Char) : Bool := 48 ≤ c.toNat && c.toNat ≤ 57

def digitVal (c : Char) : ℕ := c.toNat - 48

def natOfDigits (cs : List Char) : ℕ :=
  cs.foldl (fun a c => 10 * a + digitVal c) 0

/-- Split a character list at the first `.`, keeping what follows. -/
def splitDot : List Char → List Char × Option (List Char)
  | [] => ([], none)
  | c :: rest =>
      if c = '.' then ([], some rest)
      else
        let p := splitDot rest
        (c :: p.1, p.2)

def trimChars (cs : List Char) : List Char :=
  ((cs.dropWhile Char.isWhitespace).reverse.dropWhile Char.isWhitespace).reverse

/-- Unsigned decimal literal: digits with at most one `.` and at least
one digit somewhere (`"5"`, `"5."`, `".5"`, `"5.0"`). -/
def pyFloatCore (cs : List Char) : Option ℚ :=
  let p := splitDot cs
  match p.2 with
  | none =>
      if !p.1.isEmpty && p.1.all isDigitChar then some (natOfDigits p.1)
      else none
  | some fp =>
      if (!p.1.isEmpty || !fp.isEmpty) && p.1.all isDigitChar &&
          fp.all isDigitChar then
        some ((natOfDigits p.1 : ℚ) + (natOfDigits fp : ℚ) / 10 ^ fp.length)
      else none

/-- Python's `float(str)` on the decimal literals this application
produces and consumes: optional whitespace and sign around a decimal
literal; `none` models the `ValueError` of an unparseable field. -/
def pyFloat (s : String) : Option ℚ :=
  match trimChars s.toList with
  | '-' :: rest => (pyFloatCore rest).map (fun q => -q)
  | '+' :: rest => pyFloatCore rest
  | cs => pyFloatCore cs

/-- Python's `str.strip()`: remove leading and trailing whitespace. -/
def pyStrip (s : String) : String := String.mk (trimChars s.toList)

/-- Python's `str.upper()` on the ASCII symbols this application
handles. -/
def pyUpper (s : String) : String := String.mk (s.toList.map Char.toUpper)

/-- `float(row.get(field, 0))`: an absent column falls back to `0` (a
parseable number); a present field goes through `float()`. -/
def parseField (field : Option String) : Option ℚ :=
  match field with
  | none => some 0
  | some s => pyFloat s

/-- The row the import loop inserts (app.py 483-495).  The store's
autoincrement assigns the real id and timestamp; they are not modelled
(the import claims are about the payload columns). -/
def mkImported (userId : ℕ) (r : CsvRow) (q b : ℚ) : Investment :=
  { id := 0
    user_id := userId
    symbol := pyUpper (pyStrip (r.symbol.getD ""))
    category := pyStrip (r.category.getD "Other")
    quantity := q
    buy_price := b
    purchase_date := "" }

/-- The `for row in reader` loop of `import_csv` (app.py 473-496):
skip rows with a missing/empty symbol, abort on an unparseable number
(the loop's exception propagates to the handler's `except`), skip rows
with non-positive quantity or price, insert the rest.  `none` is the
aborted import; since the handler only commits after the whole loop,
an abort anywhere discards every pending insert. -/
def importRows (userId : ℕ) : List CsvRow → Option (List Investment × ℕ)
  | [] => some ([], 0)
  | r :: rest =>
      if (r.symbol.getD "").isEmpty then importRows userId rest
      else
        match parseField r.quantity, parseField r.buy_price with
        | some q, some b =>
            if q ≤ 0 ∨ b ≤ 0 then importRows userId rest
            else
              match importRows userId rest with
              | none => none
              | some p => some (mkImported userId r q b :: p.1, p.2 + 1)
        | _, _ => none

/-- The `import_csv` handler (app.py 458-504): on success append the
inserted rows and report how many; on an unparseable row the exception
reaches `except` before `conn.commit()`, so nothing is persisted.
Returns the new store and whether the import succeeded. -/
def import_csv (userId : ℕ) (rows : List CsvRow) (db : DB) : DB × Bool :=
  match importRows userId rows with
  | none => (db, false)
  | some p => ({ db with investments := db.investments ++ p.1 }, true)

/-- Smallest power of ten clearing the denominator (the values this
application stores are finite decimals; `none` for a non-decimal
rational, which no reachable store contains). -/
def decExp (q : ℚ) : Option ℕ :=
  (List.range 31).find? (fun k => (q * 10 ^ k).den == 1)

def natDigits : ℕ → ℕ → List Char
  | 0, _ => []
  | fuel+1, n =>
      if n = 0 then [] else natDigits fuel (n / 10) ++ [Char.ofNat (48 + n % 10)]

/-- Python's `str()` of a stored number as the CSV writer emits it:
sign, integer digits, a dot, fractional digits (`str(5.0) = "5.0"`,
`str(0.05) = "0.05"`). -/
def serRat (q : ℚ) : String :=
  match decExp q with
  | none => "inf"
  | some k =>
      let a := (q * 10 ^ k).num.natAbs
      let ds := if a = 0 then ['0'] else natDigits (a + 1) a
      let ds2 := List.replicate (k + 1 - ds.length) '0' ++ ds
      let ip := ds2.take (ds2.length - k)
      let fp := ds2.drop (ds2.length - k)
      let fp2 := if fp.isEmpty then ['0'] else fp
      String.mk ((if q < 0 then ['-'] else []) ++ ip ++ '.' :: fp2)

/-- One CSV data row of the export (app.py 447-448): the stored fields,
numbers through `str()`. -/
def exportRow (inv : Investment) : CsvRow :=
  { symbol := some inv.symbol
    category := some inv.category
    quantity := some (serRat inv.quantity)
    buy_price := some (serRat inv.buy_price)
    purchase_date := some inv.purchase_date }

/-- The `export_csv` handler (app.py 433-455): one CSV data row per
investment of the user, fields in header order
`symbol,category,quantity,buy_price,purchase_date`. -/
def export_csv (userId : ℕ) (db : DB) : List CsvRow :=
  (db.investments.filter (fun inv => inv.user_id == userId)).map exportRow

/-- The columns the round-trip preserves (purchase_date is regenerated
by the store on import). -/
def invTuple (inv : Investment) : String × String × ℚ × ℚ :=
  (inv.symbol, inv.category, inv.quantity, inv.buy_price)

/-- The `add_investment` handler, POST branch (app.py 266-325): validate
the form, then insert the investment row and exactly one BUY transaction.
An unverifiable symbol only warns; it does not block the insert. -/
def add_investment (userId : ℕ) (symbol category : String)
    (quantity buy_price : Option ℚ) (db : DB) : DB :=
  let sym := pyUpper (pyStrip symbol)
  let cat := pyStrip category
  if sym.isEmpty || cat.isEmpty then db
  else
    match quantity, buy_price with
    | some q, some b =>
        if q ≤ 0 ∨ b ≤ 0 then db
        else
          { investments := db.investments ++ [⟨0, userId, sym, cat, q, b, ""⟩],
            transactions := db.transactions ++ [⟨userId, sym, "BUY", q, b⟩] }
    | _, _ => db

/-- Which rows the import inserts, row by row: `none` for a skipped row
(missing/empty symbol, or non-positive quantity or price), the inserted
investment otherwise.  Only meaningful for files with no unparseable
number (otherwise the whole import aborts). -/
def importedOf (userId : ℕ) (r : CsvRow) : Option Investment :=
  if (r.symbol.getD "").isEmpty then none
  else
    match parseField r.quantity, parseField r.buy_price with
    | some q, some b =>
        if q ≤ 0 ∨ b ≤ 0 then none else some (mkImported userId r q b)
    | _, _ => none

/-! ### Characterisation of the valuation loop -/

/-- Generalised accumulator form of `dashLoop`. -/
theorem dashLoop_go (lookup : String → Option ℚ) (invs : List Investment)
    (rows : List ValuationRow) (tv tc : ℚ) (failed : List String) :
    invs.foldl
      (fun acc inv =>
        let lp := lookup inv.symbol
        let fl := if lp.isNone then acc.2.2.2 ++ [inv.symbol] else acc.2.2.2
        let live_price := lp.getD 0
        (acc.1 ++ [valuationRow inv live_price],
         acc.2.1 + inv.quantity * live_price,
         acc.2.2.1 + inv.quantity * inv.buy_price,
         fl))
      (rows, tv, tc, failed) =
    (rows ++ invs.map (fun inv => valuationRow inv (livePrice lookup inv.symbol)),
     tv + (invs.map (fun inv => inv.quantity * livePrice lookup inv.symbol)).sum,
     tc + (invs.map (fun inv => inv.quantity * inv.buy_price)).sum,
     failed ++ (invs.filter (fun inv => (lookup inv.symbol).isNone)).map
        (fun inv => inv.symbol)) := by
  induction invs generalizing rows tv tc failed with
  | nil => simp
  | cons inv rest ih =>
      simp only [List.foldl_cons, List.map_cons, List.sum_cons, List.filter_cons]
      rw [ih]
      cases h : lookup inv.symbol with
      | none =>
          simp [livePrice, h, List.append_assoc, add_assoc]
      | some p =>
          simp [livePrice, h, List.append_assoc, add_assoc]

/-- Closed form of the valuation pass: rows are the per-holding rows in
input order, the totals are the sums of the unrounded per-holding values
and costs, and the failed list collects exactly the symbols whose lookup
returned no price. -/
theorem dashLoop_spec (lookup : String → Option ℚ) (invs : List Investment) :
    dashLoop lookup invs =
    (invs.map (fun inv => valuationRow inv (livePrice lookup inv.symbol)),
     (invs.map (fun inv => inv.quantity * livePrice lookup inv.symbol)).sum,
     (invs.map (fun inv => inv.quantity * inv.buy_price)).sum,
     (invs.filter (fun inv => (lookup inv.symbol).isNone)).map
        (fun inv => inv.symbol)) := by
  have h := dashLoop_go lookup invs [] 0 0 []
  simpa [dashLoop] using h


theorem dashboard_rows (lookup : String → Option ℚ) (invs : List Investment) :
    (dashboard lookup invs).rows =
      invs.map (fun inv => valuationRow inv (livePrice lookup inv.symbol)) := by
  simp [dashboard, dashLoop_spec]

theorem dashboard_total_value (lookup : String → Option ℚ)
    (invs : List Investment) :
    (dashboard lookup invs).total_value =
      (invs.map (fun inv => inv.quantity * livePrice lookup inv.symbol)).sum := by
  simp [dashboard, dashLoop_spec]

theorem dashboard_total_cost (lookup : String → Option ℚ)
    (invs : List Investment) :
    (dashboard lookup invs).total_cost =
      (invs.map (fun inv => inv.quantity * inv.buy_price)).sum := by
  simp [dashboard, dashLoop_spec]

theorem dashboard_failed (lookup : String → Option ℚ) (invs : List Investment) :
    (dashboard lookup invs).failed_symbols =
      (invs.filter (fun inv => (lookup inv.symbol).isNone)).map
        (fun inv => inv.symbol) := by
  simp [dashboard, dashLoop_spec]

theorem dashboard_tpl (lookup : String → Option ℚ) (invs : List Investment) :
    (dashboard lookup invs).total_profit_loss =
      (dashboard lookup invs).total_value - (dashboard lookup invs).total_cost := by
  simp [dashboard]

theorem dashboard_trp (lookup : String → Option ℚ) (invs : List Investment) :
    (dashboard lookup invs).total_return_pct =
      (if (dashboard lookup invs).total_cost > 0 then
        ((dashboard lookup invs).total_value - (dashboard lookup invs).total_cost)
          / (dashboard lookup invs).total_cost * 100
      else 0) := by
  simp [dashboard]

theorem dashboard_categories (lookup : String → Option ℚ)
    (invs : List Investment) :
    (dashboard lookup invs).category_totals =
      (dashboard lookup invs).rows.foldl
        (fun m r => addToCategory m r.category r.value) [] := by
  simp [dashboard, dashLoop_spec]

theorem round2_zero : round2 0 = 0 := by
  norm_num [round2, roundHalfEven]

/-! ## Claim theorems: valuation arithmetic -/

/-- C1: for every holding in the valuation pass, with live price `P`,
quantity `Q` and buy price `B`, the computed row satisfies
`value = Q * P`, `cost = Q * B` and `profit_loss = value - cost`
(exactly, pre-rounding; the rendered fields carry the 2-dp rounding of
those exact quantities). -/
theorem row_value_cost_pl (lookup : String → Option ℚ)
    (invs : List Investment) (i : ℕ) (hi : i < invs.length) :
    (dashboard lookup invs).rows.length = invs.length ∧
    ((dashboard lookup invs).rows.getD i default).value =
      round2 ((invs.getD i default).quantity *
        livePrice lookup (invs.getD i default).symbol) ∧
    ((dashboard lookup invs).rows.getD i default).profit_loss =
      round2 ((invs.getD i default).quantity *
          livePrice lookup (invs.getD i default).symbol -
        (invs.getD i default).quantity * (invs.getD i default).buy_price) := by
  have hr := dashboard_rows lookup invs
  have hlen : (dashboard lookup invs).rows.length = invs.length := by
    rw [hr]; simp
  have hi' : i < (dashboard lookup invs).rows.length := by rw [hlen]; exact hi
  have hget : (dashboard lookup invs).rows.getD i default =
      valuationRow (invs.getD i default)
        (livePrice lookup (invs.getD i default).symbol) := by
    rw [List.getD_eq_getElem _ _ hi', List.getD_eq_getElem _ _ hi,
      List.getElem_of_eq hr hi', List.getElem_map]
  refine ⟨hlen, ?_, ?_⟩ <;> rw [hget] <;> simp [valuationRow]

/-- C1 witness: AAPL, quantity 10, bought at 100, live price 150:
`value = round2 1500 = 1500`, `profit_loss = round2 500 = 500`. -/
theorem row_value_cost_pl_witness :
    (dashboard (fun _ => some 150)
        [⟨1, 1, "AAPL", "Stock", 10, 100, "d"⟩]).rows.length = 1 ∧
    ((dashboard (fun _ => some 150)
        [⟨1, 1, "AAPL", "Stock", 10, 100, "d"⟩]).rows.getD 0 default).value =
      round2 (10 * livePrice (fun _ => some 150) "AAPL") ∧
    ((dashboard (fun _ => some 150)
        [⟨1, 1, "AAPL", "Stock", 10, 100, "d"⟩]).rows.getD 0 default).profit_loss =
      round2 (10 * livePrice (fun _ => some 150) "AAPL" - 10 * 100) := by
  have h := row_value_cost_pl (fun _ => some 150)
    [⟨1, 1, "AAPL", "Stock", 10, 100, "d"⟩] 0 (by simp)
  simpa using h

/-- C2: after the valuation pass, `total_value` and `total_cost` are the
sums of the per-row unrounded values and costs, `total_profit_loss` is
their difference, and `total_return_pct` is the percentage return when
`total_cost > 0` and `0` otherwise (in particular the empty portfolio
yields `0`, not a division fault). -/
theorem portfolio_totals (lookup : String → Option ℚ)
    (invs : List Investment) :
    (dashboard lookup invs).total_value =
      (invs.map (fun inv => inv.quantity * livePrice lookup inv.symbol)).sum ∧
    (dashboard lookup invs).total_cost =
      (invs.map (fun inv => inv.quantity * inv.buy_price)).sum ∧
    (dashboard lookup invs).total_profit_loss =
      (dashboard lookup invs).total_value - (dashboard lookup invs).total_cost ∧
    ((dashboard lookup invs).total_cost > 0 →
      (dashboard lookup invs).total_return_pct =
        ((dashboard lookup invs).total_value -
          (dashboard lookup invs).total_cost) /
          (dashboard lookup invs).total_cost * 100) ∧
    (¬ (dashboard lookup invs).total_cost > 0 →
      (dashboard lookup invs).total_return_pct = 0) := by
  refine ⟨dashboard_total_value lookup invs, dashboard_total_cost lookup invs,
    dashboard_tpl lookup invs, ?_, ?_⟩ <;> intro h <;>
    rw [dashboard_trp lookup invs] <;> simp [h]

/-- C2 witness: the empty portfolio has `total_value = 0` and
`total_return_pct = 0` (no division fault). -/
theorem portfolio_totals_witness :
    (dashboard (fun _ => some 150) ([] : List Investment)).total_return_pct = 0 ∧
    (dashboard (fun _ => some 150) ([] : List Investment)).total_value = 0 := by
  have h := portfolio_totals (fun _ => some 150) []
  have hc : ¬ (dashboard (fun _ => some 150) ([] : List Investment)).total_cost > 0 := by
    rw [h.2.1]; simp
  exact ⟨h.2.2.2.2 hc, by simpa using h.1⟩

/-- C3: a holding whose price lookup fails is recorded in the
failed-symbols list, still produces a row (with price and value `0` and
`profit_loss = round2 (-cost)`), and still contributes to the totals
(contributing `0` to `total_value`); the valuation is a total function
and never excludes a holding. -/
theorem failed_lookup_included (lookup : String → Option ℚ)
    (invs : List Investment) (inv : Investment) (hmem : inv ∈ invs)
    (hfail : lookup inv.symbol = none) :
    inv.symbol ∈ (dashboard lookup invs).failed_symbols ∧
    (dashboard lookup invs).rows.length = invs.length ∧
    (dashboard lookup invs).total_value =
      (invs.map (fun j =>
        if (lookup j.symbol).isNone then 0
        else j.quantity * livePrice lookup j.symbol)).sum ∧
    (valuationRow inv (livePrice lookup inv.symbol)).current_price = 0 ∧
    (valuationRow inv (livePrice lookup inv.symbol)).value = 0 ∧
    (valuationRow inv (livePrice lookup inv.symbol)).profit_loss =
      round2 (-(inv.quantity * inv.buy_price)) ∧
    valuationRow inv (livePrice lookup inv.symbol) ∈ (dashboard lookup invs).rows := by
  refine ⟨?_, ?_, ?_, ?_, ?_, ?_, ?_⟩
  · rw [dashboard_failed]
    exact List.mem_map_of_mem _ (List.mem_filter.2 ⟨hmem, by simp [hfail]⟩)
  · rw [dashboard_rows]; simp
  · rw [dashboard_total_value]
    have hfun : (fun (j : Investment) => j.quantity * livePrice lookup j.symbol) =
        (fun (j : Investment) =>
          if (lookup j.symbol).isNone then 0
          else j.quantity * livePrice lookup j.symbol) := by
      funext j
      cases h : lookup j.symbol <;> simp [livePrice, h]
    rw [hfun]
  · simp [valuationRow, livePrice, hfail, round2_zero]
  · simp [valuationRow, livePrice, hfail, round2_zero]
  · simp [valuationRow, livePrice, hfail]
  · rw [dashboard_rows]; exact List.mem_map_of_mem _ hmem

/-- C3 witness: a one-holding portfolio whose lookup fails. -/
theorem failed_lookup_included_witness :
    "FAIL" ∈ (dashboard (fun _ => none)
        [⟨1, 1, "FAIL", "Stock", 2, 3, "d"⟩]).failed_symbols ∧
    (dashboard (fun _ => none)
        [⟨1, 1, "FAIL", "Stock", 2, 3, "d"⟩]).rows.length = 1 ∧
    (valuationRow ⟨1, 1, "FAIL", "Stock", 2, 3, "d"⟩
        (livePrice (fun _ => none) "FAIL")).value = 0 ∧
    (valuationRow ⟨1, 1, "FAIL", "Stock", 2, 3, "d"⟩
        (livePrice (fun _ => none) "FAIL")).profit_loss = round2 (-(2 * 3)) := by
  have h := failed_lookup_included (fun _ => none)
    [⟨1, 1, "FAIL", "Stock", 2, 3, "d"⟩] ⟨1, 1, "FAIL", "Stock", 2, 3, "d"⟩
    (by simp) rfl
  exact ⟨h.1, h.2.1, h.2.2.2.2.1, h.2.2.2.2.2.1⟩

/-- C4: the rendered percentage return is
`round2 ((P - buy_price) / buy_price * 100)` when `buy_price > 0`, and
is defined as `0` (no division fault) when `buy_price = 0`. -/
theorem pct_return_def (lookup : String → Option ℚ)
    (invs : List Investment) (i : ℕ) (hi : i < invs.length) :
    (0 < (invs.getD i default).buy_price →
      ((dashboard lookup invs).rows.getD i default).pct_return =
        round2 ((livePrice lookup (invs.getD i default).symbol -
          (invs.getD i default).buy_price) /
          (invs.getD i default).buy_price * 100)) ∧
    ((invs.getD i default).buy_price = 0 →
      ((dashboard lookup invs).rows.getD i default).pct_return = 0) := by
  have hr := dashboard_rows lookup invs
  have hi' : i < (dashboard lookup invs).rows.length := by
    rw [hr]; simpa using hi
  have hget : (dashboard lookup invs).rows.getD i default =
      valuationRow (invs.getD i default)
        (livePrice lookup (invs.getD i default).symbol) := by
    rw [List.getD_eq_getElem _ _ hi', List.getD_eq_getElem _ _ hi,
      List.getElem_of_eq hr hi', List.getElem_map]
  have hpct : ∀ (inv : Investment) (p : ℚ),
      (valuationRow inv p).pct_return =
        round2 (if inv.buy_price > 0 then
          (p - inv.buy_price) / inv.buy_price * 100 else 0) :=
    fun inv p => rfl
  constructor <;> intro h
  · rw [hget, hpct, if_pos h]
  · rw [hget, hpct, if_neg (by rw [h]; exact lt_irrefl 0), round2_zero]

/-- C4 witness: buy price 100, live price 150 gives `round2 50 = 50`;
a synthetic zero buy price gives `0`. -/
theorem pct_return_def_witness :
    ((dashboard (fun _ => some 150)
        [⟨1, 1, "AAPL", "Stock", 10, 100, "d"⟩]).rows.getD 0 default).pct_return =
      round2 ((livePrice (fun _ => some 150) "AAPL" - 100) / 100 * 100) ∧
    ((dashboard (fun _ => some 150)
        [⟨2, 1, "ZERO", "Stock", 10, 0, "d"⟩]).rows.getD 0 default).pct_return = 0 := by
  have h1 := pct_return_def (fun _ => some 150)
    [⟨1, 1, "AAPL", "Stock", 10, 100, "d"⟩] 0 (by simp)
  have h2 := pct_return_def (fun _ => some 150)
    [⟨2, 1, "ZERO", "Stock", 10, 0, "d"⟩] 0 (by simp)
  have e1 := h1.1 (by norm_num)
  have e2 := h2.2 (by norm_num)
  constructor
  · simpa using e1
  · simpa using e2

/-! ## Category aggregation -/

theorem categorySum_addToCategory (m : List (String × ℚ)) (cat : String)
    (v : ℚ) : categorySum (addToCategory m cat v) = categorySum m + v := by
  induction m with
  | nil => simp [addToCategory, categorySum]
  | cons p rest ih =>
      obtain ⟨c, x⟩ := p
      by_cases h : c = cat <;>
        simp [addToCategory, h, categorySum, List.map_cons, List.sum_cons] <;>
        [ring; (rw [show (List.map Prod.snd (addToCategory rest cat v)).sum =
            categorySum (addToCategory rest cat v) from rfl, ih]; simp [categorySum]; ring)]

theorem categorySum_fold (rows : List ValuationRow) (m : List (String × ℚ)) :
    categorySum (rows.foldl (fun m r => addToCategory m r.category r.value) m) =
      categorySum m + (rows.map (fun r => r.value)).sum := by
  induction rows generalizing m with
  | nil => simp
  | cons r rest ih =>
      simp only [List.foldl_cons, List.map_cons, List.sum_cons]
      rw [ih, categorySum_addToCategory]
      ring

/-- C5 (amended): the sum of the per-category values equals the sum of
the *presentation-rounded* per-row values — the category buckets
accumulate `round2`-ed row values (app.py 244 adds `inv["value"]`, which
was rounded on line 230) — while `total_value` itself accumulates at
full precision.  Hence the category sum agrees with `total_value` only
up to per-row rounding error, not exactly. -/
theorem category_sum_eq_rounded_rows (lookup : String → Option ℚ)
    (invs : List Investment) :
    categorySum (dashboard lookup invs).category_totals =
      ((dashboard lookup invs).rows.map (fun r => r.value)).sum ∧
    (dashboard lookup invs).total_value =
      (invs.map (fun inv => inv.quantity * livePrice lookup inv.symbol)).sum := by
  constructor
  · rw [dashboard_categories, categorySum_fold]
    simp [categorySum]
  · exact dashboard_total_value lookup invs

/-- C5 counterexample: one holding of quantity 1 whose live price is
`1/250 = 0.004`.  Its row value is rounded to `0.00`, so the category
mapping sums to `0`, while `total_value` is the unrounded `1/250`. -/
theorem category_closure_counterexample :
    categorySum (dashboard (fun _ => some (1/250))
        [⟨1, 1, "AAA", "Stock", 1, 1, "d"⟩]).category_totals ≠
      (dashboard (fun _ => some (1/250))
        [⟨1, 1, "AAA", "Stock", 1, 1, "d"⟩]).total_value := by
  rw [dashboard_categories, dashboard_rows, dashboard_total_value]
  simp only [List.map_cons, List.map_nil, List.foldl_cons, List.foldl_nil]
  norm_num [valuationRow, livePrice, addToCategory, categorySum, round2,
    roundHalfEven]

/-! ## Claim theorems: deletion -/

/-- With pairwise-distinct ids (the primary-key invariant), the
`DELETE ... WHERE id = ? AND user_id = ?` filter removes exactly one
row when the preceding `SELECT` found one. -/
theorem filter_ownedBy_length (invId userId : ℕ) (l : List Investment)
    (inv : Investment) (hfind : l.find? (ownedBy invId userId) = some inv)
    (hpk : l.Pairwise (fun a b => a.id ≠ b.id)) :
    (l.filter (fun j => !(ownedBy invId userId j))).length + 1 = l.length := by
  induction l with
  | nil => simp at hfind
  | cons x rest ih =>
      rw [List.find?_cons] at hfind
      cases hx : ownedBy invId userId x with
      | true =>
          have hrest : rest.filter (fun j => !(ownedBy invId userId j)) = rest := by
            rw [List.filter_eq_self]
            intro y hy
            have hid : x.id ≠ y.id := (List.pairwise_cons.1 hpk).1 y hy
            have hxid : x.id = invId := by
              have := hx
              simp [ownedBy] at this
              exact this.1
            simp [ownedBy]
            exact Or.inl (fun hyid => hid (hxid.trans hyid.symm))
          simp [List.filter_cons, hx, hrest]
      | false =>
          have hfind' : rest.find? (ownedBy invId userId) = some inv := by
            rw [hx] at hfind
            exact hfind
          have := ih hfind' (List.pairwise_cons.1 hpk).2
          simp [List.filter_cons, hx]
          omega

/-- C6: deleting an investment the user owns appends exactly one SELL
transaction recording its quantity and buy price, then removes exactly
that row (under the primary-key invariant); deleting a nonexistent or
another user's investment mutates neither table. -/
theorem delete_investment_spec (userId invId : ℕ) (db : DB) :
    ((∀ inv ∈ db.investments, ¬(inv.id = invId ∧ inv.user_id = userId)) →
      delete_investment userId invId db = db) ∧
    (∀ inv, db.investments.find? (ownedBy invId userId) = some inv →
      (delete_investment userId invId db).transactions =
        db.transactions ++
          [⟨userId, inv.symbol, "SELL", inv.quantity, inv.buy_price⟩] ∧
      (delete_investment userId invId db).investments =
        db.investments.filter (fun j => !(ownedBy invId userId j)) ∧
      (db.investments.Pairwise (fun a b => a.id ≠ b.id) →
        (delete_investment userId invId db).investments.length + 1 =
          db.investments.length)) := by
  constructor
  · intro h
    have hn : db.investments.find? (ownedBy invId userId) = none := by
      rw [List.find?_eq_none]
      intro x hx
      simp [ownedBy]
      intro h1 h2
      exact (h x hx) ⟨h1, h2⟩
    simp [delete_investment, hn]
  · intro inv hfind
    refine ⟨?_, ?_, ?_⟩
    · simp [delete_investment, hfind]
    · simp [delete_investment, hfind]
    · intro hpk
      have hi : (delete_investment userId invId db).investments =
          db.investments.filter (fun j => !(ownedBy invId userId j)) := by
        simp [delete_investment, hfind]
      rw [hi]
      exact filter_ownedBy_length invId userId db.investments inv hfind hpk

/-- C6 witness: a one-row portfolio.  Deleting it as its owner appends
the SELL record and empties the table; deleting it as user 2 changes
nothing. -/
theorem delete_investment_spec_witness :
    (delete_investment 1 1
        ⟨[⟨1, 1, "AAPL", "Stock", 5, 20, "d"⟩], []⟩).transactions =
      [⟨1, "AAPL", "SELL", 5, 20⟩] ∧
    (delete_investment 1 1
        ⟨[⟨1, 1, "AAPL", "Stock", 5, 20, "d"⟩], []⟩).investments.length + 1 = 1 ∧
    delete_investment 2 1 ⟨[⟨1, 1, "AAPL", "Stock", 5, 20, "d"⟩], []⟩ =
      ⟨[⟨1, 1, "AAPL", "Stock", 5, 20, "d"⟩], []⟩ := by
  have h1 := delete_investment_spec 1 1
    ⟨[⟨1, 1, "AAPL", "Stock", 5, 20, "d"⟩], []⟩
  have h2 := delete_investment_spec 2 1
    ⟨[⟨1, 1, "AAPL", "Stock", 5, 20, "d"⟩], []⟩
  have hfind : (DB.mk [⟨1, 1, "AAPL", "Stock", 5, 20, "d"⟩] []).investments.find?
      (ownedBy 1 1) = some ⟨1, 1, "AAPL", "Stock", 5, 20, "d"⟩ := by
    simp [List.find?_cons, ownedBy]
  obtain ⟨ht, _, hl⟩ := h1.2 _ hfind
  refine ⟨by simpa using ht, by simpa using hl (by simp), h2.1 ?_⟩
  intro inv hmem
  simp at hmem
  subst hmem
  simp

/-- C7: a successful edit leaves the transaction log untouched and
changes only the target row's `quantity` and `buy_price` (ids, owners,
symbols, categories, purchase dates and all other rows are unchanged);
transaction rows are produced by creation (one BUY) and deletion (one
SELL), never by an edit. -/
theorem edit_investment_spec (userId invId : ℕ) (q b : ℚ) (db : DB)
    (hex : ∃ inv ∈ db.investments, inv.id = invId ∧ inv.user_id = userId)
    (hq : 0 < q) (hb : 0 < b) :
    (edit_investment userId invId (some q) (some b) db).transactions =
      db.transactions ∧
    (edit_investment userId invId (some q) (some b) db).investments.length =
      db.investments.length ∧
    (∀ i, i < db.investments.length →
      ((edit_investment userId invId (some q) (some b) db).investments.getD i
          default).id = (db.investments.getD i default).id ∧
      ((edit_investment userId invId (some q) (some b) db).investments.getD i
          default).user_id = (db.investments.getD i default).user_id ∧
      ((edit_investment userId invId (some q) (some b) db).investments.getD i
          default).symbol = (db.investments.getD i default).symbol ∧
      ((edit_investment userId invId (some q) (some b) db).investments.getD i
          default).category = (db.investments.getD i default).category ∧
      ((edit_investment userId invId (some q) (some b) db).investments.getD i
          default).purchase_date = (db.investments.getD i default).purchase_date ∧
      ((db.investments.getD i default).id ≠ invId →
        (edit_investment userId invId (some q) (some b) db).investments.getD i
          default = db.investments.getD i default) ∧
      ((db.investments.getD i default).id = invId →
        ((edit_investment userId invId (some q) (some b) db).investments.getD i
            default).quantity = q ∧
        ((edit_investment userId invId (some q) (some b) db).investments.getD i
            default).buy_price = b)) ∧
    (∀ (sym cat : String) (q2 b2 : ℚ), 0 < q2 → 0 < b2 →
      (pyUpper (pyStrip sym)).isEmpty = false → (pyStrip cat).isEmpty = false →
      (add_investment userId sym cat (some q2) (some b2) db).transactions =
        db.transactions ++ [⟨userId, pyUpper (pyStrip sym), "BUY", q2, b2⟩]) := by
  obtain ⟨invF, hmemF, hidF, huF⟩ := hex
  have hsome : (db.investments.find? (ownedBy invId userId)).isSome :=
    List.find?_isSome.2 ⟨invF, hmemF, by simp [ownedBy, hidF, huF]⟩
  obtain ⟨found, hfind⟩ := Option.isSome_iff_exists.1 hsome
  have hneg : ¬(q ≤ 0 ∨ b ≤ 0) := by
    push_neg
    exact ⟨hq, hb⟩
  have hE : edit_investment userId invId (some q) (some b) db =
      { db with
        investments := db.investments.map (fun inv =>
          if inv.id == invId then { inv with quantity := q, buy_price := b }
          else inv) } := by
    simp [edit_investment, hfind, hneg]
  refine ⟨by rw [hE], by rw [hE]; simp, ?_, ?_⟩
  · intro i hi
    have hg : (edit_investment userId invId (some q) (some b) db).investments.getD
        i default = (fun inv =>
          if inv.id == invId then { inv with quantity := q, buy_price := b }
          else inv) (db.investments.getD i default) := by
      rw [hE]
      rw [List.getD_eq_getElem _ _ (by simpa using hi), List.getElem_map,
        List.getD_eq_getElem _ _ hi]
    rw [hg]
    generalize db.investments.getD i default = old
    by_cases hid : old.id = invId
    · simp [hid]
    · simp [hid]
  · intro sym cat q2 b2 hq2 hb2 hs hc
    have hneg2 : ¬(q2 ≤ 0 ∨ b2 ≤ 0) := by
      push_neg
      exact ⟨hq2, hb2⟩
    simp [add_investment, hs, hc, hneg2]

/-- C7 witness: editing the first of two holdings to quantity 7 and buy
price 8 rewrites just those two fields, keeps the second row and the
transaction log, and adding a holding appends one BUY record. -/
theorem edit_investment_spec_witness :
    (edit_investment 1 1 (some 7) (some 8)
        ⟨[⟨1, 1, "AAPL", "Stock", 5, 20, "d"⟩, ⟨2, 1, "MSFT", "Crypto", 3, 30, "d"⟩],
         [⟨1, "AAPL", "BUY", 5, 20⟩]⟩).transactions = [⟨1, "AAPL", "BUY", 5, 20⟩] ∧
    ((edit_investment 1 1 (some 7) (some 8)
        ⟨[⟨1, 1, "AAPL", "Stock", 5, 20, "d"⟩, ⟨2, 1, "MSFT", "Crypto", 3, 30, "d"⟩],
         [⟨1, "AAPL", "BUY", 5, 20⟩]⟩).investments.getD 0 default).quantity = 7 ∧
    ((edit_investment 1 1 (some 7) (some 8)
        ⟨[⟨1, 1, "AAPL", "Stock", 5, 20, "d"⟩, ⟨2, 1, "MSFT", "Crypto", 3, 30, "d"⟩],
         [⟨1, "AAPL", "BUY", 5, 20⟩]⟩).investments.getD 0 default).symbol = "AAPL" ∧
    (edit_investment 1 1 (some 7) (some 8)
        ⟨[⟨1, 1, "AAPL", "Stock", 5, 20, "d"⟩, ⟨2, 1, "MSFT", "Crypto", 3, 30, "d"⟩],
         [⟨1, "AAPL", "BUY", 5, 20⟩]⟩).investments.getD 1 default =
      ⟨2, 1, "MSFT", "Crypto", 3, 30, "d"⟩ ∧
    (add_investment 1 "IBM" "Stock" (some 2) (some 3)
        ⟨[⟨1, 1, "AAPL", "Stock", 5, 20, "d"⟩, ⟨2, 1, "MSFT", "Crypto", 3, 30, "d"⟩],
         [⟨1, "AAPL", "BUY", 5, 20⟩]⟩).transactions =
      [⟨1, "AAPL", "BUY", 5, 20⟩, ⟨1, pyUpper (pyStrip "IBM"), "BUY", 2, 3⟩] := by
  have h := edit_investment_spec 1 1 7 8
    ⟨[⟨1, 1, "AAPL", "Stock", 5, 20, "d"⟩, ⟨2, 1, "MSFT", "Crypto", 3, 30, "d"⟩],
     [⟨1, "AAPL", "BUY", 5, 20⟩]⟩
    ⟨⟨1, 1, "AAPL", "Stock", 5, 20, "d"⟩, by simp, rfl, rfl⟩
    (by norm_num) (by norm_num)
  obtain ⟨ht, _, hrow, hadd⟩ := h
  have h0 := hrow 0 (by simp)
  have h1 := hrow 1 (by simp)
  refine ⟨ht, h0.2.2.2.2.2.2 rfl |>.1, h0.2.2.1, ?_, ?_⟩
  · have := h1.2.2.2.2.2.1 (by simp)
    simpa using this
  · have := hadd "IBM" "Stock" 2 3 (by norm_num) (by norm_num)
      (by decide) (by decide)
    simpa using this

/-- The import loop on a file whose number fields all parse: it inserts
exactly the per-row selection `importedOf`, in order, and counts them. -/
theorem importRows_of_parses (userId : ℕ) (rows : List CsvRow)
    (hp : ∀ r ∈ rows,
      (parseField r.quantity).isSome ∧ (parseField r.buy_price).isSome) :
    importRows userId rows = some (rows.filterMap (importedOf userId),
      (rows.filterMap (importedOf userId)).length) := by
  induction rows with
  | nil => simp [importRows]
  | cons r rest ih =>
      have hr := hp r (List.mem_cons_self r rest)
      have hrest := ih (fun x hx => hp x (List.mem_cons_of_mem r hx))
      obtain ⟨q, hq⟩ := Option.isSome_iff_exists.1 hr.1
      obtain ⟨b, hb⟩ := Option.isSome_iff_exists.1 hr.2
      by_cases hs : (r.symbol.getD "").isEmpty
      · simp [importRows, hs, hrest, List.filterMap_cons, importedOf]
      · by_cases hqb : q ≤ 0 ∨ b ≤ 0
        · simp [importRows, hs, hq, hb, hqb, hrest, List.filterMap_cons,
            importedOf]
        · simp [importRows, hs, hq, hb, hqb, hrest, List.filterMap_cons,
            importedOf]

/-- C9: importing a file whose number fields all parse inserts exactly
the rows that have a symbol and positive quantity and price, as new
investments appended to the table (no de-duplication), and writes no
transaction record. -/
theorem import_csv_spec (userId : ℕ) (rows : List CsvRow) (db : DB)
    (hp : ∀ r ∈ rows,
      (parseField r.quantity).isSome ∧ (parseField r.buy_price).isSome) :
    (import_csv userId rows db).2 = true ∧
    (import_csv userId rows db).1.transactions = db.transactions ∧
    (import_csv userId rows db).1.investments =
      db.investments ++ rows.filterMap (importedOf userId) := by
  have h := importRows_of_parses userId rows hp
  simp [import_csv, h]

/-- C9 witness: the spec's scenario rows — `",Other,5,10"` (missing
symbol) and `"AAPL,Stock,-1,10"` (non-positive quantity) are skipped,
while `"MSFT,Stock,5,10"` is inserted, duplicating nothing and logging
nothing. -/
theorem import_csv_spec_witness :
    (import_csv 7 [⟨some "", some "Other", some "5", some "10", none⟩,
        ⟨some "AAPL", some "Stock", some "-1", some "10", none⟩,
        ⟨some "MSFT", some "Stock", some "5", some "10", none⟩]
      ⟨[], []⟩).2 = true ∧
    (import_csv 7 [⟨some "", some "Other", some "5", some "10", none⟩,
        ⟨some "AAPL", some "Stock", some "-1", some "10", none⟩,
        ⟨some "MSFT", some "Stock", some "5", some "10", none⟩]
      ⟨[], []⟩).1.transactions = [] ∧
    (import_csv 7 [⟨some "", some "Other", some "5", some "10", none⟩,
        ⟨some "AAPL", some "Stock", some "-1", some "10", none⟩,
        ⟨some "MSFT", some "Stock", some "5", some "10", none⟩]
      ⟨[], []⟩).1.investments =
      [⟨0, 7, pyUpper (pyStrip "MSFT"), pyStrip "Stock", 5, 10, ""⟩] := by
  have e5 : pyFloat "5" = some 5 := by
    simp [pyFloat, trimChars, pyFloatCore, splitDot, natOfDigits,
      isDigitChar, digitVal]
  have e10 : pyFloat "10" = some 10 := by
    simp [pyFloat, trimChars, pyFloatCore, splitDot, natOfDigits,
      isDigitChar, digitVal]
  have em1 : pyFloat "-1" = some (-1) := by
    simp [pyFloat, trimChars, pyFloatCore, splitDot, natOfDigits,
      isDigitChar, digitVal]
  have hp : ∀ r ∈ [(⟨some "", some "Other", some "5", some "10", none⟩ : CsvRow),
      ⟨some "AAPL", some "Stock", some "-1", some "10", none⟩,
      ⟨some "MSFT", some "Stock", some "5", some "10", none⟩],
      (parseField r.quantity).isSome ∧ (parseField r.buy_price).isSome := by
    intro r hr
    simp only [List.mem_cons, List.not_mem_nil, or_false] at hr
    rcases hr with h1 | h1 | h1 <;> subst h1 <;>
      simp [parseField, e5, e10, em1]
  have h := import_csv_spec 7
    [⟨some "", some "Other", some "5", some "10", none⟩,
     ⟨some "AAPL", some "Stock", some "-1", some "10", none⟩,
     ⟨some "MSFT", some "Stock", some "5", some "10", none⟩] ⟨[], []⟩ hp
  refine ⟨h.1, h.2.1, ?_⟩
  rw [h.2.2]
  have hfm : [(⟨some "", some "Other", some "5", some "10", none⟩ : CsvRow),
      ⟨some "AAPL", some "Stock", some "-1", some "10", none⟩,
      ⟨some "MSFT", some "Stock", some "5", some "10", none⟩].filterMap
        (importedOf 7) =
      [⟨0, 7, pyUpper (pyStrip "MSFT"), pyStrip "Stock", 5, 10, ""⟩] := by
    rw [List.filterMap_cons, List.filterMap_cons, List.filterMap_cons,
      List.filterMap_nil]
    have h1 : importedOf 7 (⟨some "", some "Other", some "5", some "10", none⟩ : CsvRow) = none := by
      simp [importedOf, show ("" : String).isEmpty = true from rfl]
    have h2 : importedOf 7 (⟨some "AAPL", some "Stock", some "-1", some "10", none⟩ : CsvRow) = none := by
      simp [importedOf, parseField, em1, e10]
    have h3 : importedOf 7 (⟨some "MSFT", some "Stock", some "5", some "10", none⟩ : CsvRow) =
        some ⟨0, 7, pyUpper (pyStrip "MSFT"), pyStrip "Stock", 5, 10, ""⟩ := by
      simp [importedOf, parseField, e5, e10, mkImported,
        show ("MSFT" : String).isEmpty = false from rfl]
    rw [h1, h2, h3]
  rw [hfm]
  simp

/-- A row with a symbol but an unparseable number aborts the loop. -/
theorem importRows_abort (userId : ℕ) (rows : List CsvRow)
    (hbad : ∃ r ∈ rows, (r.symbol.getD "").isEmpty = false ∧
      (parseField r.quantity = none ∨ parseField r.buy_price = none)) :
    importRows userId rows = none := by
  induction rows with
  | nil => simp at hbad
  | cons r rest ih =>
      obtain ⟨x, hx, hxs, hxp⟩ := hbad
      rcases List.mem_cons.1 hx with heq | hmem
      · subst heq
        cases hq : parseField x.quantity with
        | none => simp [importRows, hxs, hq]
        | some q =>
            cases hb : parseField x.buy_price with
            | none => simp [importRows, hxs, hq, hb]
            | some b =>
                rcases hxp with h | h
                · exact absurd (hq ▸ h) (by simp)
                · exact absurd (hb ▸ h) (by simp)
      · have hrest := ih ⟨x, hmem, hxs, hxp⟩
        by_cases hs : (r.symbol.getD "").isEmpty
        · simp [importRows, hs, hrest]
        · cases hq : parseField r.quantity with
          | none => simp [importRows, hs, hq]
          | some q =>
              cases hb : parseField r.buy_price with
              | none => simp [importRows, hs, hq, hb]
              | some b =>
                  by_cases hqb : q ≤ 0 ∨ b ≤ 0 <;>
                    simp [importRows, hs, hq, hb, hqb, hrest]

/-- C10: a CSV file containing a row that has a symbol but an
unparseable quantity or price makes the whole import fail: the store is
returned unchanged (no row of the file is inserted, before or after the
bad row) and the handler reports failure. -/
theorem import_csv_bad_row (userId : ℕ) (rows : List CsvRow) (db : DB)
    (hbad : ∃ r ∈ rows, (r.symbol.getD "").isEmpty = false ∧
      (parseField r.quantity = none ∨ parseField r.buy_price = none)) :
    import_csv userId rows db = (db, false) := by
  rw [import_csv, importRows_abort userId rows hbad]

/-- C10 witness: a well-formed AAPL row followed by a row whose
quantity field is `"abc"`; nothing at all is imported. -/
theorem import_csv_bad_row_witness :
    import_csv 7 [⟨some "AAPL", some "Stock", some "5", some "10", none⟩,
        ⟨some "BAD", some "Stock", some "abc", some "10", none⟩]
      ⟨[⟨1, 1, "X", "Stock", 1, 1, "d"⟩], []⟩ =
    (⟨[⟨1, 1, "X", "Stock", 1, 1, "d"⟩], []⟩, false) := by
  have habc : pyFloat "abc" = none := by
    simp [pyFloat, trimChars, pyFloatCore, splitDot, natOfDigits,
      isDigitChar, digitVal]
  exact import_csv_bad_row 7 _ _
    ⟨⟨some "BAD", some "Stock", some "abc", some "10", none⟩, by simp,
      rfl, Or.inl (by simp [parseField, habc])⟩

/-- The import loop consumes an exported portfolio row-for-row when the
holdings satisfy the store's invariants (positive numbers, nonempty
symbol) and their numbers survive the print/parse cycle. -/
theorem importRows_exportRow (u2 : ℕ) (l : List Investment)
    (h : ∀ inv ∈ l,
      0 < inv.quantity ∧ 0 < inv.buy_price ∧
      inv.symbol.isEmpty = false ∧
      pyFloat (serRat inv.quantity) = some inv.quantity ∧
      pyFloat (serRat inv.buy_price) = some inv.buy_price) :
    importRows u2 (l.map exportRow) =
      some (l.map (fun inv =>
          mkImported u2 (exportRow inv) inv.quantity inv.buy_price),
        l.length) := by
  induction l with
  | nil => simp [importRows]
  | cons inv rest ih =>
      obtain ⟨hq, hb, hs, hpq, hpb⟩ := h inv (List.mem_cons_self inv rest)
      have hrest := ih (fun x hx => h x (List.mem_cons_of_mem _ hx))
      have hqb : ¬(inv.quantity ≤ 0 ∨ inv.buy_price ≤ 0) := by
        push_neg
        exact ⟨hq, hb⟩
      simp [importRows, exportRow, parseField, hs, hpq, hpb, hqb, hrest]

/-- C8: exporting a user's portfolio and importing the file into the
empty portfolio of another user reproduces exactly the same list of
(symbol, category, quantity, buy_price) tuples, provided the holdings
satisfy the store invariants (positive numbers, nonempty normalised
symbol, stripped category) and their numbers survive the print/parse
cycle (the float-repr round-trip guarantee). -/
theorem csv_roundtrip (u1 u2 : ℕ) (db : DB)
    (h : ∀ inv ∈ db.investments.filter (fun i => i.user_id == u1),
      0 < inv.quantity ∧ 0 < inv.buy_price ∧
      inv.symbol.isEmpty = false ∧
      pyUpper (pyStrip inv.symbol) = inv.symbol ∧
      pyStrip inv.category = inv.category ∧
      pyFloat (serRat inv.quantity) = some inv.quantity ∧
      pyFloat (serRat inv.buy_price) = some inv.buy_price) :
    (import_csv u2 (export_csv u1 db) ⟨[], []⟩).2 = true ∧
    (import_csv u2 (export_csv u1 db) ⟨[], []⟩).1.transactions = [] ∧
    (import_csv u2 (export_csv u1 db) ⟨[], []⟩).1.investments.map invTuple =
      (db.investments.filter (fun i => i.user_id == u1)).map invTuple := by
  have himp := importRows_exportRow u2
    (db.investments.filter (fun i => i.user_id == u1))
    (fun inv hmem => by
      obtain ⟨h1, h2, h3, _, _, h6, h7⟩ := h inv hmem
      exact ⟨h1, h2, h3, h6, h7⟩)
  have hexp : export_csv u1 db =
      (db.investments.filter (fun i => i.user_id == u1)).map exportRow := rfl
  refine ⟨?_, ?_, ?_⟩
  · simp [import_csv, hexp, himp]
  · simp [import_csv, hexp, himp]
  · have hi : (import_csv u2 (export_csv u1 db) ⟨[], []⟩).1.investments =
        (db.investments.filter (fun i => i.user_id == u1)).map (fun inv =>
          mkImported u2 (exportRow inv) inv.quantity inv.buy_price) := by
      simp [import_csv, hexp, himp]
    rw [hi, List.map_map]
    refine List.map_congr_left ?_
    intro inv hmem
    obtain ⟨_, _, _, h4, h5, _, _⟩ := h inv hmem
    simp [invTuple, mkImported, exportRow, Function.comp, h4, h5]

theorem serRat_five : serRat 5 = "5.0" := by
  have hd : decExp 5 = some 0 := by
    rw [decExp, List.range_succ_eq_map, List.find?_cons]
    norm_num
  rw [serRat, hd]
  norm_num [natDigits]

theorem serRat_twenty : serRat 20 = "20.0" := by
  have hd : decExp 20 = some 0 := by
    rw [decExp, List.range_succ_eq_map, List.find?_cons]
    norm_num
  rw [serRat, hd]
  norm_num [natDigits]

theorem pyFloat_five : pyFloat "5.0" = some 5 := by
  simp [pyFloat, trimChars, pyFloatCore, splitDot, natOfDigits,
    isDigitChar, digitVal]

theorem pyFloat_twenty : pyFloat "20.0" = some 20 := by
  simp [pyFloat, trimChars, pyFloatCore, splitDot, natOfDigits,
    isDigitChar, digitVal]

/-- C8 witness: a portfolio holding AAPL (quantity 5, bought at 20) next
to another user's holding; exporting user 1 and importing into an empty
portfolio of user 2 reproduces exactly user 1's (symbol, category,
quantity, buy_price) tuple. -/
theorem csv_roundtrip_witness :
    (import_csv 2 (export_csv 1
        ⟨[⟨1, 1, "AAPL", "Stock", 5, 20, "d"⟩, ⟨2, 3, "XYZ", "Bond", 1, 1, "d"⟩],
         []⟩) ⟨[], []⟩).2 = true ∧
    (import_csv 2 (export_csv 1
        ⟨[⟨1, 1, "AAPL", "Stock", 5, 20, "d"⟩, ⟨2, 3, "XYZ", "Bond", 1, 1, "d"⟩],
         []⟩) ⟨[], []⟩).1.investments.map invTuple =
      [("AAPL", "Stock", (5 : ℚ), (20 : ℚ))] := by
  have h := csv_roundtrip 1 2
    ⟨[⟨1, 1, "AAPL", "Stock", 5, 20, "d"⟩, ⟨2, 3, "XYZ", "Bond", 1, 1, "d"⟩],
     []⟩ ?_
  · refine ⟨h.1, ?_⟩
    rw [h.2.2]
    simp [invTuple]
  · intro inv hmem
    simp only [List.filter_cons, List.filter_nil] at hmem
    norm_num at hmem
    subst hmem
    refine ⟨by norm_num, by norm_num, rfl, rfl, rfl, ?_, ?_⟩
    · rw [serRat_five]
      exact pyFloat_five
    · rw [serRat_twenty]
      exact pyFloat_twenty
